import Mathlib

/-!
Verification development for the back-office accounting core
(`src/server/store/accounting.ts`, `src/server/lib/mysql.ts`, the due-installment
scheduler of `src/README.md`, and the client offline queue).

Modelling conventions:
* UUID keys are modelled as `Nat`; fresh ids are passed explicitly and freshness
  is a hypothesis where the source relies on `crypto.randomUUID()` uniqueness.
* JS `Map<string, T>` objects (the module-level `fallbackStore`) are modelled as
  `List T` keyed by an id projection, with `Map.get`/`Map.set`/`Map.delete`
  semantics (`getByKey`/`upsert`/`deleteByKey`).
* Money and quantities (JS `number`) are modelled as `Int`; dates and
  timestamps are ISO strings as in the source, compared with JS string
  comparison (lexicographic by code unit, `strLt`/`strLe`).
* Database-backed code paths (MySQL/SQLite behind the storage abstraction) are
  modelled as pure functions on a `Db` record of tables; `ON DELETE CASCADE`
  foreign keys follow the schema in `ensureSqliteSchema`.
-/

/-- `Map.get`: first element whose key matches. -/
def getByKey {α : Type} (key : α → Nat) (l : List α) (i : Nat) : Option α :=
  l.find? (fun x => key x == i)

/-- `Map.set`: replace the (unique) entry with the same key in place, else append. -/
def upsert {α : Type} (key : α → Nat) : List α → α → List α
  | [], v => [v]
  | x :: xs, v => if key x == key v then v :: xs else x :: upsert key xs v

/-- `Map.delete`: remove the entry with the key; also report whether it was present. -/
def deleteByKey {α : Type} (key : α → Nat) (l : List α) (i : Nat) : List α × Bool :=
  (l.filter (fun x => !(key x == i)), l.any (fun x => key x == i))

/-- JS string `<` (lexicographic by code unit; on the ASCII ISO dates used by the
store this agrees with comparing code points). -/
def charListLt : List Char → List Char → Bool
  | [], [] => false
  | [], _ :: _ => true
  | _ :: _, [] => false
  | a :: as, b :: bs =>
    if a.toNat < b.toNat then true
    else if b.toNat < a.toNat then false
    else charListLt as bs

def strLt (a b : String) : Bool := charListLt a.toList b.toList

def strLe (a b : String) : Bool := !(strLt b a)

/-! ## Calendar model of `addMonthsISO` (src/server/store/accounting.ts:307-316)

The source builds `new Date(y, m - 1 + months, d || 1)`; the JS `Date`
constructor normalizes an out-of-range month index by carrying into the year
(floor division), and an out-of-range day by carrying day by day into following
months. `normDateAux` performs that day normalization with explicit fuel
(`d` itself suffices, each carry removes at least 28 days). -/

def leapYearJs (y : Int) : Bool := (y % 4 == 0 && y % 100 != 0) || y % 400 == 0

def daysInMonth (y : Int) (m : Nat) : Nat :=
  if m == 2 then (if leapYearJs y then 29 else 28)
  else if m == 4 || m == 6 || m == 9 || m == 11 then 30
  else 31

def normDateAux : Nat → Int → Nat → Nat → Int × Nat × Nat
  | 0, y, m, d => (y, m, d)
  | fuel + 1, y, m, d =>
    if d ≤ daysInMonth y m then (y, m, d)
    else if m == 12 then normDateAux fuel (y + 1) 1 (d - daysInMonth y m)
    else normDateAux fuel y (m + 1) (d - daysInMonth y m)

/-- `Number` applied to a digit component of an ISO date (`"2024-01-31".split("-").map(Number)`);
well-formed date strings have pure digit components. -/
def digitsToNat (cs : List Char) : Nat := cs.foldl (fun n c => n * 10 + (c.toNat - 48)) 0

def parseISOParts (s : String) : List Nat := (s.toList.splitOn '-').map digitsToNat

/-- `String(n).padStart(2, "0")`. -/
def pad2 (n : Nat) : String := if n < 10 then "0" ++ toString n else toString n

/-- `addMonthsISO(start, months)` from src/server/store/accounting.ts:307-316.
`dd` clamps the original day to the length of the month the (already
overflow-normalized) JS date landed in, exactly as the source computes it. -/
def addMonthsISO (start : String) (months : Nat) : String :=
  let parts := parseISOParts start
  let y : Int := Int.ofNat (parts.getD 0 0)
  let m : Nat := parts.getD 1 0
  let d : Nat := parts.getD 2 0
  let d1 : Nat := if d == 0 then 1 else d
  let mIdx : Int := (m : Int) - 1 + (months : Int)
  let y1 : Int := y + mIdx.fdiv 12
  let m1 : Nat := (mIdx.emod 12).toNat + 1
  let norm := normDateAux d1 y1 m1 d1
  let yyyy := norm.1
  let mm := norm.2.1
  let dd : Nat := min d1 (daysInMonth yyyy mm)
  toString yyyy ++ "-" ++ pad2 mm ++ "-" ++ pad2 dd

/-! ## Entities (shared/accounting.ts shapes, ids as `Nat`) -/

structure Transaction where
  id : Nat
  date : String
  type : String
  description : String
  amount : Int
  approved : Bool
  createdBy : Option Nat
  createdAt : String
deriving DecidableEq

structure InventoryItem where
  id : Nat
  name : String
  quantity : Int
  unit : String
  min : Int
  updatedAt : String
deriving DecidableEq

structure Movement where
  id : Nat
  itemId : Nat
  kind : String
  qty : Int
  unitPrice : Int
  total : Int
  party : String
  date : String
deriving DecidableEq

structure Project where
  id : Nat
  name : String
  location : String
  floors : Int
  units : Int
  createdAt : String
deriving DecidableEq

structure ProjectCost where
  id : Nat
  projectId : Nat
  type : String
  amount : Int
  date : String
  note : Option String
deriving DecidableEq

structure ProjectSale where
  id : Nat
  projectId : Nat
  unitNo : String
  buyer : String
  price : Int
  date : String
  terms : Option String
  area : Option String
  paymentMethod : Option String
deriving DecidableEq

structure Installment where
  id : Nat
  projectId : Nat
  saleId : Nat
  unitNo : String
  buyer : String
  amount : Int
  dueDate : String
  paid : Bool
  paidAt : Option String
deriving DecidableEq

structure InstallmentReminder where
  id : Nat
  installmentId : Nat
  sentAt : String
  note : Option String
deriving DecidableEq

/-- Database tables, per `ensureSqliteSchema` / `ensureMysqlSchema` (src/server/lib/mysql.ts). -/
structure Db where
  projects : List Project
  costs : List ProjectCost
  sales : List ProjectSale
  installments : List Installment
  reminders : List InstallmentReminder
  transactions : List Transaction
  items : List InventoryItem
  movements : List Movement
deriving DecidableEq

/-- Stable sort by `dueDate` (the `list.sort` comparator at
src/server/store/accounting.ts:370-372; JS `Array.prototype.sort` is stable). -/
def sortByDueDate (l : List Installment) : List Installment :=
  List.insertionSort (fun a b => strLe a.dueDate b.dueDate = true) l

/-- `createInstallmentsForSale` (src/server/store/accounting.ts:318-373), degraded-path
store effect: each generated row is `set` into `fallbackStore.installments` in loop
order; the returned list is sorted ascending by due date. `ids i` models the
`crypto.randomUUID()` drawn for row `i`. Returns (updated store, returned list). -/
def createInstallmentsForSale (ids : Nat → Nat) (projectId saleId : Nat)
    (unitNo buyer : String) (monthlyAmount : Int) (months : Nat) (firstDueDate : String)
    (store : List Installment) : List Installment × List Installment :=
  let rows := (List.range months).map (fun i =>
    { id := ids i, projectId := projectId, saleId := saleId, unitNo := unitNo,
      buyer := buyer, amount := monthlyAmount, dueDate := addMonthsISO firstDueDate i,
      paid := false, paidAt := none : Installment })
  (rows.foldl (fun st inst => upsert Installment.id st inst) store, sortByDueDate rows)

/-- The settlement `TransactionCreateInput` that `payInstallment` records (same
in both its branches): a revenue entry for the installment's amount. -/
def settlementTx (inst : Installment) (txId : Nat) (date : String) (approved : Bool)
    (createdBy : Option Nat) (now : String) : Transaction :=
  { id := txId, date := date, type := "revenue",
    description := "سداد قسط وحدة " ++ inst.unitNo ++ " من " ++ inst.buyer,
    amount := inst.amount, approved := approved, createdBy := createdBy,
    createdAt := now }

/-- `payInstallment` (src/server/store/accounting.ts:1216-1247) with the in-memory
transaction backend (`createTransaction` falling back to `createTransactionFallback`).
The installment lookup always reads the module-level `fallbackStore.installments`. -/
def payInstallment (installments : List Installment) (transactions : List Transaction)
    (txId : Nat) (now : String) (id : Nat) (date : String) (approved : Bool)
    (createdBy : Option Nat) :
    Except String ((List Installment × List Transaction) × Installment × Transaction) :=
  match getByKey Installment.id installments id with
  | none => Except.error "Installment not found"
  | some inst =>
    let transaction : Transaction := settlementTx inst txId date approved createdBy now
    if inst.paid then
      Except.ok ((installments, upsert Transaction.id transactions transaction),
        inst, transaction)
    else
      let updated : Installment := { inst with paid := true, paidAt := some date }
      Except.ok ((upsert Installment.id installments updated,
        upsert Transaction.id transactions transaction), updated, transaction)

/-- `payInstallment` when a database pool is configured: the settlement transaction
is inserted into the `transactions` table (`insertTransactionDb`), but the
installment lookup still reads only the in-memory `fallbackStore.installments`
map — the `project_installments` table is never consulted. -/
def payInstallmentDbMode (mem : List Installment) (db : Db) (txId : Nat) (now : String)
    (id : Nat) (date : String) (approved : Bool) (createdBy : Option Nat) :
    Except String ((List Installment × Db) × Installment × Transaction) :=
  match getByKey Installment.id mem id with
  | none => Except.error "Installment not found"
  | some inst =>
    let transaction : Transaction := settlementTx inst txId date approved createdBy now
    let db' : Db := { db with transactions := db.transactions ++ [transaction] }
    if inst.paid then
      Except.ok ((mem, db'), inst, transaction)
    else
      let updated : Installment := { inst with paid := true, paidAt := some date }
      Except.ok ((upsert Installment.id mem updated, db'), updated, transaction)

/-! ## Inventory operations (degraded in-memory path) -/

structure InventoryReceiptInput where
  itemId : Nat
  qty : Int
  unitPrice : Int
  supplier : String
  date : String
  approved : Bool
  createdBy : Option Nat
deriving DecidableEq

structure InventoryIssueInput where
  itemId : Nat
  qty : Int
  unitPrice : Int
  project : String
  date : String
  approved : Bool
  createdBy : Option Nat
deriving DecidableEq

/-- `recordInventoryReceipt` (src/server/store/accounting.ts:679-773), fallback branch;
the database branch performs the same `quantity + qty` update, movement insert and
derived expense transaction inside one transaction. -/
def recordInventoryReceiptFallback (items : List InventoryItem) (movements : List Movement)
    (txs : List Transaction) (movId txId : Nat) (now : String)
    (input : InventoryReceiptInput) :
    Except String ((List InventoryItem × List Movement × List Transaction) ×
      InventoryItem × Movement × Transaction) :=
  match getByKey InventoryItem.id items input.itemId with
  | none => Except.error "Inventory item not found"
  | some item =>
    let updated : InventoryItem :=
      { item with quantity := item.quantity + input.qty, updatedAt := input.date }
    let movement : Movement :=
      { id := movId, itemId := input.itemId, kind := "in", qty := input.qty,
        unitPrice := input.unitPrice, total := input.qty * input.unitPrice,
        party := input.supplier, date := input.date }
    let transaction : Transaction :=
      { id := txId, date := input.date, type := "expense",
        description := "شراء " ++ item.name ++ " من " ++ input.supplier ++ " (" ++
          toString input.qty ++ " " ++ item.unit ++ " × " ++ toString input.unitPrice ++ ")",
        amount := movement.total, approved := input.approved,
        createdBy := input.createdBy, createdAt := now }
    Except.ok ((upsert InventoryItem.id items updated,
      upsert Movement.id movements movement,
      upsert Transaction.id txs transaction), updated, movement, transaction)

/-- `recordInventoryIssue` (src/server/store/accounting.ts:775-872), fallback branch;
the database branch computes the same `Math.max(0, quantity - qty)` next quantity. -/
def recordInventoryIssueFallback (items : List InventoryItem) (movements : List Movement)
    (txs : List Transaction) (movId txId : Nat) (now : String)
    (input : InventoryIssueInput) :
    Except String ((List InventoryItem × List Movement × List Transaction) ×
      InventoryItem × Movement × Transaction) :=
  match getByKey InventoryItem.id items input.itemId with
  | none => Except.error "Inventory item not found"
  | some item =>
    let nextQuantity : Int := max 0 (item.quantity - input.qty)
    let updated : InventoryItem :=
      { item with quantity := nextQuantity, updatedAt := input.date }
    let movement : Movement :=
      { id := movId, itemId := input.itemId, kind := "out", qty := input.qty,
        unitPrice := input.unitPrice, total := input.qty * input.unitPrice,
        party := input.project, date := input.date }
    let transaction : Transaction :=
      { id := txId, date := input.date, type := "expense",
        description := "صرف " ++ item.name ++ " لمشروع " ++ input.project ++ " (" ++
          toString input.qty ++ " " ++ item.unit ++ " × " ++ toString input.unitPrice ++ ")",
        amount := movement.total, approved := input.approved,
        createdBy := input.createdBy, createdAt := now }
    Except.ok ((upsert InventoryItem.id items updated,
      upsert Movement.id movements movement,
      upsert Transaction.id txs transaction), updated, movement, transaction)

/-- `deleteInventoryItem` (src/server/store/accounting.ts:655-665), fallback branch:
the result of `fallbackStore.items.delete(id)` is ignored, movements of the item are
removed, and no error is ever raised (the database branch is a bare `DELETE`). -/
def deleteInventoryItemFallback (items : List InventoryItem) (movements : List Movement)
    (id : Nat) : Except String (List InventoryItem × List Movement) :=
  Except.ok ((deleteByKey InventoryItem.id items id).1,
    movements.filter (fun m => !(m.itemId == id)))

/-- `deleteTransaction` (src/server/store/accounting.ts:614-623), fallback branch:
throws "Transaction not found" when `Map.delete` reports the id missing. -/
def deleteTransactionFallback (txs : List Transaction) (id : Nat) :
    Except String (List Transaction) :=
  let removed := deleteByKey Transaction.id txs id
  if removed.2 then Except.ok removed.1 else Except.error "Transaction not found"

/-! ## Project sale (degraded in-memory path) -/

structure ProjectSaleCreateInput where
  projectId : Nat
  projectName : String
  unitNo : String
  buyer : String
  price : Int
  date : String
  terms : Option String
  area : Option String
  paymentMethod : Option String
  downPayment : Option Int
  monthlyAmount : Option Int
  months : Option Nat
  firstDueDate : Option String
  approved : Bool
  createdBy : Option Nat
deriving DecidableEq

/-- `Boolean(input.monthlyAmount && input.months && input.firstDueDate)` —
JS truthiness: `0`, `null`/absent and `""` are falsy. -/
def hasPlanInput (input : ProjectSaleCreateInput) : Bool :=
  (match input.monthlyAmount with | some m => m != 0 | none => false) &&
  (match input.months with | some n => n != 0 | none => false) &&
  (match input.firstDueDate with | some f => f != "" | none => false)

/-- `createProjectSale` (src/server/store/accounting.ts:1093-1203), fallback branch.
Returns (sales store, transactions store, installments store, sale, transaction,
optional installment batch). The immediate revenue transaction is for the down
payment when a financing plan is present, else for the full price; the plan's
`monthlyAmount`/`months` are taken verbatim from the input. -/
def createProjectSaleFallback (sales : List ProjectSale) (txs : List Transaction)
    (insts : List Installment) (saleId txId : Nat) (ids : Nat → Nat) (now : String)
    (input : ProjectSaleCreateInput) :
    (List ProjectSale × List Transaction × List Installment) ×
      ProjectSale × Transaction × Option (List Installment) :=
  let sale : ProjectSale :=
    { id := saleId, projectId := input.projectId, unitNo := input.unitNo,
      buyer := input.buyer, price := input.price, date := input.date,
      terms := input.terms, area := input.area, paymentMethod := input.paymentMethod }
  let sales' := upsert ProjectSale.id sales sale
  let hasPlan := hasPlanInput input
  let immediateAmount : Int :=
    if hasPlan then max 0 (input.downPayment.getD 0) else input.price
  let transaction : Transaction :=
    { id := txId, date := input.date, type := "revenue",
      description :=
        if hasPlan then
          "بيع بالتقسيط لوحدة " ++ input.unitNo ++ " من مشروع " ++ input.projectName ++ " (مقدم)"
        else
          "بيع وحدة " ++ input.unitNo ++ " من مشروع " ++ input.projectName ++ " إلى " ++ input.buyer,
      amount := immediateAmount, approved := input.approved,
      createdBy := input.createdBy, createdAt := now }
  let txs' := upsert Transaction.id txs transaction
  if hasPlan then
    let generated := createInstallmentsForSale ids input.projectId saleId input.unitNo
      input.buyer (input.monthlyAmount.getD 0) (input.months.getD 0)
      (input.firstDueDate.getD "") insts
    ((sales', txs', generated.1), sale, transaction, some generated.2)
  else
    ((sales', txs', insts), sale, transaction, none)

/-! ## Project deletion (database path, with the schema's cascades) -/

/-- `deleteProject` (src/server/store/accounting.ts:988-1026), database branch, with the
`ON DELETE CASCADE` foreign keys of `ensureSqliteSchema` (src/server/lib/mysql.ts:283-316):
deleting sales cascades to their installments (and those installments' reminders),
deleting the project cascades to its costs, sales and installments. All statements run
inside one transaction: the function returns the fully-updated state or an error with
no partial effect. -/
def deleteProjectDb (db : Db) (id : Nat) : Except String Db :=
  if (db.projects.find? (fun p => p.id == id)).isNone then
    Except.error "Project not found"
  else
    let deletedSaleIds := (db.sales.filter (fun s => s.projectId == id)).map ProjectSale.id
    let db1 : Db := { db with sales := db.sales.filter (fun s => !(s.projectId == id)) }
    let cascadedInstIds1 :=
      (db1.installments.filter (fun i => deletedSaleIds.contains i.saleId)).map Installment.id
    let db2 : Db := { db1 with
      installments := db1.installments.filter (fun i => !(deletedSaleIds.contains i.saleId)),
      reminders := db1.reminders.filter (fun r => !(cascadedInstIds1.contains r.installmentId)) }
    let db3 : Db := { db2 with costs := db2.costs.filter (fun c => !(c.projectId == id)) }
    let cascadedInstIds2 :=
      (db3.installments.filter (fun i => i.projectId == id)).map Installment.id
    Except.ok { db3 with
      projects := db3.projects.filter (fun p => !(p.id == id)),
      costs := db3.costs.filter (fun c => !(c.projectId == id)),
      sales := db3.sales.filter (fun s => !(s.projectId == id)),
      installments := db3.installments.filter (fun i => !(i.projectId == id)),
      reminders := db3.reminders.filter (fun r => !(cascadedInstIds2.contains r.installmentId)) }

/-! ## Due-installment sweep (database path) -/

/-- `getDueInstallments` (src/server/store/accounting.ts:414-456), database branch:
`WHERE paid = 0 AND due_date <= ? ORDER BY due_date ASC`. -/
def getDueInstallmentsDb (db : Db) (date : String) : List Installment :=
  sortByDueDate (db.installments.filter (fun i => !i.paid && strLe i.dueDate date))

/-- One `runOnce` of `scheduleDueInstallmentChecks` (src/README.md:198-212) against the
database-backed `createInstallmentReminder` (src/server/store/accounting.ts:458-479):
for every due unpaid installment, insert one reminder row with a fresh id
(`rids` indexes the UUID drawn per reminder) and the auto-reminder note. -/
def sweepRunOnce (db : Db) (date now : String) (rids : Nat → Nat) : Db :=
  let due := getDueInstallmentsDb db date
  { db with reminders := db.reminders ++ due.enum.map (fun p =>
      { id := rids p.1, installmentId := p.2.id, sentAt := now,
        note := some ("auto reminder for due " ++ p.2.dueDate) }) }

/-- Number of stored reminders for one installment. -/
def reminderCount (db : Db) (installmentId : Nat) : Nat :=
  (db.reminders.filter (fun r => r.installmentId == installmentId)).length

/-! ## Offline mutation queue (src/unnamed/part_005) -/

structure QueuedRequest where
  id : String
  url : String
  method : String
  headers : List (String × String)
  body : Option String
  createdAt : Nat
  retryCount : Nat
deriving DecidableEq

/-- One iteration of the `for (const item of q)` loop in `processQueue`
(src/unnamed/part_005:73-116). `fetch item = none` models a thrown network error,
`some status` a response with that HTTP status (`res.ok` iff 200 ≤ status < 300). -/
def processStep (fetch : QueuedRequest → Option Nat) (remaining : List QueuedRequest)
    (item : QueuedRequest) : List QueuedRequest :=
  match fetch item with
  | some status =>
    if ¬ (200 ≤ status ∧ status < 300) then
      if 400 ≤ status ∧ status < 500 then remaining
      else
        let retried := { item with retryCount := item.retryCount + 1 }
        if retried.retryCount ≤ 5 then remaining ++ [retried] else remaining
    else remaining
  | none =>
    let retried := { item with retryCount := item.retryCount + 1 }
    if retried.retryCount ≤ 5 then remaining ++ [retried] else remaining

/-- One drain pass of `processQueue`: replay every queued mutation in FIFO order,
accumulating the `remaining` list that is saved back as the queue. -/
def processQueuePass (fetch : QueuedRequest → Option Nat) (q : List QueuedRequest) :
    List QueuedRequest :=
  q.foldl (processStep fetch) []

/-- A concrete database: project 1 owns costs 11,12, sale 21 and installments
31,32; project 2 owns cost 13, sale 22, installment 33 with reminder 41. -/
def sampleDbC3 : Db :=
  { projects := [⟨1, "P1", "L", 0, 0, "T"⟩, ⟨2, "P2", "L", 0, 0, "T"⟩],
    costs := [⟨11, 1, "construction", 5, "2024-01-01", none⟩,
              ⟨12, 1, "operation", 6, "2024-01-01", none⟩,
              ⟨13, 2, "expense", 7, "2024-01-01", none⟩],
    sales := [⟨21, 1, "U1", "B", 100, "2024-01-01", none, none, none⟩,
              ⟨22, 2, "U2", "B2", 100, "2024-01-01", none, none, none⟩],
    installments := [⟨31, 1, 21, "U1", "B", 10, "2024-02-01", false, none⟩,
                     ⟨32, 1, 21, "U1", "B", 10, "2024-03-01", false, none⟩,
                     ⟨33, 2, 22, "U2", "B2", 10, "2024-02-01", false, none⟩],
    reminders := [⟨41, 33, "T", none⟩],
    transactions := [], items := [], movements := [] }

/-! ## Helper lemmas about the `Map` model -/

theorem getByKey_upsert_self {α : Type} (key : α → Nat) (l : List α) (v : α) :
    getByKey key (upsert key l v) (key v) = some v := by
  induction l with
  | nil => simp [upsert, getByKey]
  | cons x xs ih =>
    by_cases h : key x = key v
    · simp [upsert, getByKey, h]
    · simp only [upsert, beq_iff_eq, h, if_false]
      simpa [getByKey, List.find?_cons, h] using ih

theorem getByKey_upsert_ne {α : Type} (key : α → Nat) (l : List α) (v : α) (i : Nat)
    (h : i ≠ key v) : getByKey key (upsert key l v) i = getByKey key l i := by
  have hvi : ¬ key v = i := fun hh => h hh.symm
  induction l with
  | nil => simp [upsert, getByKey, hvi]
  | cons x xs ih =>
    by_cases hx : key x = key v
    · have hxi : ¬ key x = i := by rw [hx]; exact hvi
      simp [upsert, getByKey, hx, hvi, hxi]
    · by_cases hxi : key x = i
      · simp [upsert, getByKey, hx, hxi, hvi, h]
      · simpa [upsert, getByKey, hx, hxi, hvi, h] using ih

theorem upsert_of_forall_ne {α : Type} (key : α → Nat) (l : List α) (v : α)
    (h : ∀ x ∈ l, key x ≠ key v) : upsert key l v = l ++ [v] := by
  induction l with
  | nil => simp [upsert]
  | cons x xs ih =>
    have hx : key x ≠ key v := h x (List.mem_cons_self x xs)
    simp only [upsert, beq_iff_eq, hx, if_false, List.cons_append, List.cons.injEq,
      true_and]
    exact ih (fun y hy => h y (List.mem_cons_of_mem x hy))

theorem getByKey_some {α : Type} (key : α → Nat) (l : List α) (i : Nat) (w : α)
    (h : getByKey key l i = some w) : key w = i ∧ w ∈ l := by
  refine ⟨?_, List.mem_of_find?_eq_some h⟩
  have := List.find?_some h
  simpa using this

theorem foldl_upsert_getByKey_ne {α : Type} (key : α → Nat) (rows : List α)
    (st : List α) (j : Nat) (h : ∀ r ∈ rows, key r ≠ j) :
    getByKey key (rows.foldl (fun acc r => upsert key acc r) st) j = getByKey key st j := by
  induction rows generalizing st with
  | nil => rfl
  | cons r rows ih =>
    have hr : key r ≠ j := h r (List.mem_cons_self r rows)
    have step : getByKey key (upsert key st r) j = getByKey key st j :=
      getByKey_upsert_ne key st r j (fun hh => hr hh.symm)
    simpa [List.foldl_cons, step] using
      ih (upsert key st r) (fun y hy => h y (List.mem_cons_of_mem r hy))

theorem deleteByKey_not_present {α : Type} (key : α → Nat) (l : List α) (i : Nat)
    (h : ∀ x ∈ l, key x ≠ i) : deleteByKey key l i = (l, false) := by
  unfold deleteByKey
  simp only [Prod.mk.injEq]
  refine ⟨?_, ?_⟩
  · simp only [List.filter_eq_self]
    intro a ha
    simpa using h a ha
  · simp only [List.any_eq_false]
    intro a ha
    simpa using h a ha

/-! ## Counting lemmas -/

theorem countP_enumFrom {α : Type} (q : α → Bool) (l : List α) (n : Nat) :
    (List.enumFrom n l).countP (fun p => q p.2) = l.countP q := by
  induction l generalizing n with
  | nil => rfl
  | cons x xs ih => simp [List.enumFrom, List.countP_cons, ih]

theorem countP_id_filter_of_nodup (l : List Installment) (p : Installment → Bool)
    (x : Installment) (hN : (l.map Installment.id).Nodup) (hx : x ∈ l) :
    (l.filter p).countP (fun a => a.id == x.id) = if p x then 1 else 0 := by
  induction l with
  | nil => cases hx
  | cons y ys ih =>
    simp only [List.map_cons, List.nodup_cons] at hN
    rcases List.mem_cons.mp hx with hxy | hxs
    · subst hxy
      have hzero : (ys.filter p).countP (fun a => a.id == x.id) = 0 := by
        rw [List.countP_eq_zero]
        intro a ha
        have ha' : a ∈ ys := List.mem_of_mem_filter ha
        have : a.id ≠ x.id := fun hh => hN.1 (hh ▸ List.mem_map_of_mem Installment.id ha')
        simpa using this
      by_cases hp : p x
      · simp [List.filter_cons, hp, List.countP_cons, hzero]
      · simp [List.filter_cons, hp, hzero]
    · have hy : y.id ≠ x.id := by
        intro hh
        exact hN.1 (hh.symm ▸ List.mem_map_of_mem Installment.id hxs)
      have := ih hN.2 hxs
      by_cases hp : p y
      · simp [List.filter_cons, hp, List.countP_cons, hy, this]
      · simp [List.filter_cons, hp, this]

theorem sum_map_const_int {α : Type} (l : List α) (m : Int) :
    (l.map (fun _ => m)).sum = (l.length : Int) * m := by
  induction l with
  | nil => simp
  | cons x xs ih =>
    simp only [List.map_cons, List.sum_cons, ih, List.length_cons]
    push_cast
    ring

/-- Generating an installment batch with fresh ids leaves every pre-existing
entry of the installments store untouched. -/
theorem generator_preserves_existing (ids : Nat → Nat) (pr sa : Nat) (un bu : String)
    (m : Int) (n : Nat) (f : String) (st : List Installment)
    (hfresh : ∀ i, i < n → ∀ x ∈ st, x.id ≠ ids i) (j : Nat) (w : Installment)
    (hw : getByKey Installment.id st j = some w) :
    getByKey Installment.id (createInstallmentsForSale ids pr sa un bu m n f st).1 j
      = getByKey Installment.id st j := by
  obtain ⟨hkey, hmem⟩ := getByKey_some _ _ _ _ hw
  unfold createInstallmentsForSale
  apply foldl_upsert_getByKey_ne
  intro r hr
  simp only [List.mem_map, List.mem_range] at hr
  obtain ⟨i, hi, rfl⟩ := hr
  have hne : w.id ≠ ids i := hfresh i hi w hmem
  show ids i ≠ j
  intro hcontra
  exact hne (by rw [hkey, ← hcontra])

/-- C1: for the spec's example (months=6, monthlyAmount=1000,
firstDueDate=2024-01-31) the generator produces 6 rows, each of amount 1000 and
paid=false, sorted ascending — but the due dates are 2024-01-31, 2024-03-31,
2024-03-31, 2024-05-31, 2024-05-31, 2024-07-31, not the claimed clamped
schedule: `addMonthsISO` feeds the raw day into the JS `Date` constructor, so a
day-of-month that exceeds the target month's length rolls over into the
following month (2024-01-31 + 1 month = 2024-03-31, not 2024-02-29), defeating
the clamp the source itself computes in its `Math.min(d, lastDay)` step. -/
theorem claim_C1_schedule_eval :
    ((createInstallmentsForSale (fun i => i) 1 2 "U1" "B1" 1000 6 "2024-01-31" []).2.map
        Installment.dueDate
      = ["2024-01-31", "2024-03-31", "2024-03-31", "2024-05-31", "2024-05-31",
          "2024-07-31"]) ∧
    addMonthsISO "2024-01-31" 1 ≠ "2024-02-29" ∧
    addMonthsISO "2024-01-31" 3 ≠ "2024-04-30" ∧
    addMonthsISO "2024-01-31" 5 ≠ "2024-06-30" ∧
    ((createInstallmentsForSale (fun i => i) 1 2 "U1" "B1" 1000 6 "2024-01-31" []).2.map
        Installment.amount = [1000, 1000, 1000, 1000, 1000, 1000]) ∧
    ((createInstallmentsForSale (fun i => i) 1 2 "U1" "B1" 1000 6 "2024-01-31" []).2.map
        Installment.paid = [false, false, false, false, false, false]) := by
  decide

/-- C4: an issue on an existing item always succeeds (no insufficient-stock
rejection) and stores quantity `max 0 (before - qty)`, which is never negative. -/
theorem claim_C4_issue_clamped (items : List InventoryItem) (movements : List Movement)
    (txs : List Transaction) (movId txId : Nat) (now : String)
    (input : InventoryIssueInput) (item : InventoryItem)
    (hfound : getByKey InventoryItem.id items input.itemId = some item)
    (hqty : 0 < input.qty) (hprice : 0 < input.unitPrice) :
    ∃ items' movements' txs' updated movement transaction,
      recordInventoryIssueFallback items movements txs movId txId now input
        = Except.ok ((items', movements', txs'), updated, movement, transaction) ∧
      updated.quantity = max 0 (item.quantity - input.qty) ∧
      getByKey InventoryItem.id items' input.itemId = some updated ∧
      0 ≤ updated.quantity := by
  have hkey := (getByKey_some _ _ _ _ hfound).1
  simp only [recordInventoryIssueFallback, hfound]
  refine ⟨_, _, _, _, _, _, rfl, rfl, ?_, le_max_left 0 _⟩
  have := getByKey_upsert_self InventoryItem.id items
    { item with quantity := max 0 (item.quantity - input.qty), updatedAt := input.date }
  simpa [hkey] using this

/-- C4 witness: issuing qty 10 against stock 5 succeeds and clamps to 0. -/
theorem claim_C4_issue_clamped_witness :
    (getByKey InventoryItem.id [⟨1, "cement", 5, "bag", 0, "2024-01-01"⟩] 1
      = some ⟨1, "cement", 5, "bag", 0, "2024-01-01"⟩) ∧
    (0 : Int) < 10 ∧ (0 : Int) < 3 ∧
    (∃ items' movements' txs' updated movement transaction,
      recordInventoryIssueFallback [⟨1, "cement", 5, "bag", 0, "2024-01-01"⟩] [] []
          20 21 "2024-01-02T00:00:00.000Z" ⟨1, 10, 3, "P", "2024-01-02", true, none⟩
        = Except.ok ((items', movements', txs'), updated, movement, transaction) ∧
      updated.quantity = max 0 ((5 : Int) - 10) ∧
      getByKey InventoryItem.id items' 1 = some updated ∧
      0 ≤ updated.quantity) :=
  ⟨by decide, by decide, by decide,
    claim_C4_issue_clamped [⟨1, "cement", 5, "bag", 0, "2024-01-01"⟩] [] [] 20 21
      "2024-01-02T00:00:00.000Z" ⟨1, 10, 3, "P", "2024-01-02", true, none⟩
      ⟨1, "cement", 5, "bag", 0, "2024-01-01"⟩ (by decide) (by decide) (by decide)⟩

/-- C8: a receipt on an existing item adds qty to the stored quantity and creates
exactly one "in" movement and one expense transaction, both with
total = qty × unitPrice. -/
theorem claim_C8_receipt (items : List InventoryItem) (movements : List Movement)
    (txs : List Transaction) (movId txId : Nat) (now : String)
    (input : InventoryReceiptInput) (item : InventoryItem)
    (hfound : getByKey InventoryItem.id items input.itemId = some item)
    (hqty : 0 < input.qty) (hprice : 0 < input.unitPrice)
    (hmovFresh : ∀ m ∈ movements, m.id ≠ movId)
    (htxFresh : ∀ t ∈ txs, t.id ≠ txId) :
    ∃ items' movements' txs' updated movement transaction,
      recordInventoryReceiptFallback items movements txs movId txId now input
        = Except.ok ((items', movements', txs'), updated, movement, transaction) ∧
      updated.quantity = item.quantity + input.qty ∧
      getByKey InventoryItem.id items' input.itemId = some updated ∧
      movement.kind = "in" ∧ movement.total = input.qty * input.unitPrice ∧
      transaction.type = "expense" ∧
      transaction.amount = input.qty * input.unitPrice ∧
      movements' = movements ++ [movement] ∧
      movements'.length = movements.length + 1 ∧
      txs' = txs ++ [transaction] ∧ txs'.length = txs.length + 1 := by
  have hkey := (getByKey_some _ _ _ _ hfound).1
  simp only [recordInventoryReceiptFallback, hfound]
  have hmovApp := upsert_of_forall_ne Movement.id movements
    { id := movId, itemId := input.itemId, kind := "in", qty := input.qty,
      unitPrice := input.unitPrice, total := input.qty * input.unitPrice,
      party := input.supplier, date := input.date } (by intro x hx; exact hmovFresh x hx)
  refine ⟨_, _, _, _, _, _, rfl, rfl, ?_, rfl, rfl, rfl, rfl, hmovApp, ?_, ?_, ?_⟩
  · have := getByKey_upsert_self InventoryItem.id items
      { item with quantity := item.quantity + input.qty, updatedAt := input.date }
    simpa [hkey] using this
  · rw [hmovApp]; simp
  · exact upsert_of_forall_ne Transaction.id txs _ (by intro t ht; exact htxFresh t ht)
  · rw [upsert_of_forall_ne Transaction.id txs _ (by intro t ht; exact htxFresh t ht)]
    simp

/-- C8 witness: receiving qty 4 at unit price 7 on stock 5. -/
theorem claim_C8_receipt_witness :
    (getByKey InventoryItem.id [⟨1, "cement", 5, "bag", 0, "2024-01-01"⟩] 1
      = some ⟨1, "cement", 5, "bag", 0, "2024-01-01"⟩) ∧
    (0 : Int) < 4 ∧ (0 : Int) < 7 ∧
    (∃ items' movements' txs' updated movement transaction,
      recordInventoryReceiptFallback [⟨1, "cement", 5, "bag", 0, "2024-01-01"⟩] [] []
          20 21 "2024-01-02T00:00:00.000Z" ⟨1, 4, 7, "S", "2024-01-02", true, none⟩
        = Except.ok ((items', movements', txs'), updated, movement, transaction) ∧
      updated.quantity = (5 : Int) + 4 ∧
      getByKey InventoryItem.id items' 1 = some updated ∧
      movement.kind = "in" ∧ movement.total = (4 : Int) * 7 ∧
      transaction.type = "expense" ∧ transaction.amount = (4 : Int) * 7 ∧
      movements' = ([] : List Movement) ++ [movement] ∧
      movements'.length = ([] : List Movement).length + 1 ∧
      txs' = ([] : List Transaction) ++ [transaction] ∧
      txs'.length = ([] : List Transaction).length + 1) :=
  ⟨by decide, by decide, by decide,
    claim_C8_receipt [⟨1, "cement", 5, "bag", 0, "2024-01-01"⟩] [] [] 20 21
      "2024-01-02T00:00:00.000Z" ⟨1, 4, 7, "S", "2024-01-02", true, none⟩
      ⟨1, "cement", 5, "bag", 0, "2024-01-01"⟩ (by decide) (by decide) (by decide)
      (by intro m hm; cases hm) (by intro t ht; cases ht)⟩

/-- C10: `payInstallment` resolves the id only against the in-memory
`fallbackStore.installments`; if the id is absent there it errors with
"Installment not found" even when a matching row exists in the database's
`project_installments` table. -/
theorem claim_C10_ignores_db (mem : List Installment) (db : Db) (txId : Nat)
    (now : String) (iid : Nat) (date : String) (approved : Bool)
    (createdBy : Option Nat) (row : Installment)
    (hmem : getByKey Installment.id mem iid = none)
    (hrow : row ∈ db.installments) (hrowId : row.id = iid) :
    payInstallmentDbMode mem db txId now iid date approved createdBy
      = Except.error "Installment not found" := by
  simp [payInstallmentDbMode, hmem]

/-- C10 witness: the db holds installment 5, the in-memory map does not; paying
id 5 fails with "Installment not found". -/
theorem claim_C10_ignores_db_witness :
    (getByKey Installment.id [] 5 = none) ∧
    (⟨5, 1, 2, "U", "B", 400, "2024-01-01", false, none⟩ : Installment) ∈
      (Db.mk [] [] [] [⟨5, 1, 2, "U", "B", 400, "2024-01-01", false, none⟩] [] [] [] []).installments ∧
    (Installment.mk 5 1 2 "U" "B" 400 "2024-01-01" false none).id = 5 ∧
    payInstallmentDbMode []
        (Db.mk [] [] [] [⟨5, 1, 2, "U", "B", 400, "2024-01-01", false, none⟩] [] [] [] [])
        9 "2024-02-01T00:00:00.000Z" 5 "2024-02-01" true none
      = Except.error "Installment not found" :=
  ⟨by decide, by decide, by decide,
    claim_C10_ignores_db []
      (Db.mk [] [] [] [⟨5, 1, 2, "U", "B", 400, "2024-01-01", false, none⟩] [] [] [] [])
      9 "2024-02-01T00:00:00.000Z" 5 "2024-02-01" true none
      ⟨5, 1, 2, "U", "B", 400, "2024-01-01", false, none⟩ (by decide) (by decide)
      (by decide)⟩

/-- C2: paying an unpaid installment flips `paid` to true, stamps `paidAt` with the
payment date, and appends exactly one revenue transaction of the installment's
amount; paying an already-paid installment still creates and returns a new
settlement transaction while leaving the installment (indeed the whole
installments store) unchanged; and neither settlement nor batch generation with
fresh ids ever resets a true `paid` flag. -/
theorem claim_C2_payInstallment (insts : List Installment) (txs : List Transaction)
    (txId : Nat) (now : String) (iid : Nat) (date : String) (approved : Bool)
    (createdBy : Option Nat) (inst : Installment)
    (hfound : getByKey Installment.id insts iid = some inst)
    (htxFresh : ∀ t ∈ txs, t.id ≠ txId) :
    (∃ insts' txs' retInst retTx,
      payInstallment insts txs txId now iid date approved createdBy
        = Except.ok ((insts', txs'), retInst, retTx) ∧
      retTx.type = "revenue" ∧ retTx.amount = inst.amount ∧ retTx.id = txId ∧
      txs' = txs ++ [retTx] ∧ txs'.length = txs.length + 1 ∧
      (inst.paid = false →
        retInst.paid = true ∧ retInst.paidAt = some date ∧
        getByKey Installment.id insts' iid = some retInst) ∧
      (inst.paid = true → retInst = inst ∧ insts' = insts) ∧
      (∀ j w, getByKey Installment.id insts j = some w → w.paid = true →
        ∃ w', getByKey Installment.id insts' j = some w' ∧ w'.paid = true)) ∧
    (∀ ids pr sa un bu m n f (st : List Installment),
      (∀ i, i < n → ∀ x ∈ st, x.id ≠ ids i) →
      ∀ j w, getByKey Installment.id st j = some w → w.paid = true →
        ∃ w', getByKey Installment.id
            (createInstallmentsForSale ids pr sa un bu m n f st).1 j = some w' ∧
          w'.paid = true) := by
  constructor
  · have hkey := (getByKey_some _ _ _ _ hfound).1
    have htxApp : upsert Transaction.id txs (settlementTx inst txId date approved createdBy now)
        = txs ++ [settlementTx inst txId date approved createdBy now] :=
      upsert_of_forall_ne _ _ _ (fun t ht => htxFresh t ht)
    cases hp : inst.paid with
    | true =>
      refine ⟨insts,
        upsert Transaction.id txs (settlementTx inst txId date approved createdBy now),
        inst, settlementTx inst txId date approved createdBy now,
        ?_, rfl, rfl, rfl, htxApp, ?_, ?_, ?_, ?_⟩
      · simp [payInstallment, hfound, hp]
      · rw [htxApp]; simp
      · intro hfalse; exact absurd hfalse (by simp)
      · intro _; exact ⟨rfl, rfl⟩
      · intro j w hw hpaid; exact ⟨w, hw, hpaid⟩
    | false =>
      refine ⟨upsert Installment.id insts { inst with paid := true, paidAt := some date },
        upsert Transaction.id txs (settlementTx inst txId date approved createdBy now),
        { inst with paid := true, paidAt := some date },
        settlementTx inst txId date approved createdBy now,
        ?_, rfl, rfl, rfl, htxApp, ?_, ?_, ?_, ?_⟩
      · simp [payInstallment, hfound, hp]
      · rw [htxApp]; simp
      · intro _
        refine ⟨rfl, rfl, ?_⟩
        have := getByKey_upsert_self Installment.id insts
          { inst with paid := true, paidAt := some date }
        simpa [hkey] using this
      · intro htrue; exact absurd htrue (by simp)
      · intro j w hw hpaid
        by_cases hj : j = iid
        · subst hj
          rw [hfound] at hw
          injection hw with hw
          rw [← hw, hp] at hpaid
          cases hpaid
        · have hne : j ≠ ({ inst with paid := true, paidAt := some date } : Installment).id := by
            show j ≠ inst.id
            rw [hkey]; exact hj
          have := getByKey_upsert_ne Installment.id insts
            { inst with paid := true, paidAt := some date } j hne
          exact ⟨w, by rw [this]; exact hw, hpaid⟩
  · intro ids pr sa un bu m n f st hfresh j w hw hpaid
    have := generator_preserves_existing ids pr sa un bu m n f st hfresh j w hw
    exact ⟨w, by rw [this]; exact hw, hpaid⟩

/-- C2 witness: paying unpaid installment 1 (amount 500) with fresh transaction
id 7 instantiates every hypothesis of the C2 theorem. -/
theorem claim_C2_payInstallment_witness :
    (getByKey Installment.id [⟨1, 10, 20, "U", "B", 500, "2024-01-01", false, none⟩] 1
      = some ⟨1, 10, 20, "U", "B", 500, "2024-01-01", false, none⟩) ∧
    (∀ t ∈ ([] : List Transaction), t.id ≠ 7) ∧
    ((∃ insts' txs' retInst retTx,
      payInstallment [⟨1, 10, 20, "U", "B", 500, "2024-01-01", false, none⟩] [] 7
          "2024-01-02T00:00:00.000Z" 1 "2024-01-02" true none
        = Except.ok ((insts', txs'), retInst, retTx) ∧
      retTx.type = "revenue" ∧
      retTx.amount = (Installment.mk 1 10 20 "U" "B" 500 "2024-01-01" false none).amount ∧
      retTx.id = 7 ∧
      txs' = ([] : List Transaction) ++ [retTx] ∧
      txs'.length = ([] : List Transaction).length + 1 ∧
      ((Installment.mk 1 10 20 "U" "B" 500 "2024-01-01" false none).paid = false →
        retInst.paid = true ∧ retInst.paidAt = some "2024-01-02" ∧
        getByKey Installment.id insts' 1 = some retInst) ∧
      ((Installment.mk 1 10 20 "U" "B" 500 "2024-01-01" false none).paid = true →
        retInst = ⟨1, 10, 20, "U", "B", 500, "2024-01-01", false, none⟩ ∧
        insts' = [⟨1, 10, 20, "U", "B", 500, "2024-01-01", false, none⟩]) ∧
      (∀ j w,
        getByKey Installment.id [⟨1, 10, 20, "U", "B", 500, "2024-01-01", false, none⟩] j
          = some w → w.paid = true →
        ∃ w', getByKey Installment.id insts' j = some w' ∧ w'.paid = true)) ∧
    (∀ ids pr sa un bu m n f (st : List Installment),
      (∀ i, i < n → ∀ x ∈ st, x.id ≠ ids i) →
      ∀ j w, getByKey Installment.id st j = some w → w.paid = true →
        ∃ w', getByKey Installment.id
            (createInstallmentsForSale ids pr sa un bu m n f st).1 j = some w' ∧
          w'.paid = true)) :=
  ⟨by decide, by simp,
    claim_C2_payInstallment [⟨1, 10, 20, "U", "B", 500, "2024-01-01", false, none⟩] [] 7
      "2024-01-02T00:00:00.000Z" 1 "2024-01-02" true none
      ⟨1, 10, 20, "U", "B", 500, "2024-01-01", false, none⟩ (by decide) (by simp)⟩

/-- C9 counterexample: with item 1 in stock, deleting the nonexistent inventory
item id 99 does NOT raise a not-found error — it returns successfully (the
fallback branch ignores the result of `Map.delete`, and the database branch is a
bare `DELETE`), refuting the claim that `deleteInventoryItem` on a missing id
raises not-found. -/
theorem claim_C9_counterexample :
    deleteInventoryItemFallback [⟨1, "cement", 5, "bag", 0, "2024-01-01"⟩] [] 99
      = Except.ok ([⟨1, "cement", 5, "bag", 0, "2024-01-01"⟩], []) := by rfl

/-- C9 amended: deleting a missing inventory item id completes without error and
leaves the stored state unchanged, while deleting a missing transaction (in the
in-memory store path) does raise "Transaction not found" and leaves state
unchanged. -/
theorem claim_C9_amended (items : List InventoryItem) (movements : List Movement)
    (txs : List Transaction) (iid tid : Nat)
    (hitem : ∀ x ∈ items, x.id ≠ iid) (hmov : ∀ m ∈ movements, m.itemId ≠ iid)
    (htx : ∀ t ∈ txs, t.id ≠ tid) :
    deleteInventoryItemFallback items movements iid = Except.ok (items, movements) ∧
    deleteTransactionFallback txs tid = Except.error "Transaction not found" := by
  constructor
  · have h1 : (deleteByKey InventoryItem.id items iid).1 = items := by
      rw [deleteByKey_not_present InventoryItem.id items iid hitem]
    have h2 : movements.filter (fun m => !(m.itemId == iid)) = movements := by
      rw [List.filter_eq_self]
      intro a ha
      simpa using hmov a ha
    unfold deleteInventoryItemFallback
    rw [h1, h2]
  · unfold deleteTransactionFallback
    rw [deleteByKey_not_present Transaction.id txs tid htx]
    simp

/-- C9 witness: store holding item 1 and transaction 2; ids 99 and 98 are absent. -/
theorem claim_C9_amended_witness :
    (∀ x ∈ [(⟨1, "cement", 5, "bag", 0, "2024-01-01"⟩ : InventoryItem)], x.id ≠ 99) ∧
    (∀ m ∈ ([] : List Movement), m.itemId ≠ 99) ∧
    (∀ t ∈ [(⟨2, "2024-01-01", "revenue", "d", 10, true, none, "T"⟩ : Transaction)],
      t.id ≠ 98) ∧
    (deleteInventoryItemFallback [⟨1, "cement", 5, "bag", 0, "2024-01-01"⟩] [] 99
        = Except.ok ([⟨1, "cement", 5, "bag", 0, "2024-01-01"⟩], []) ∧
      deleteTransactionFallback [⟨2, "2024-01-01", "revenue", "d", 10, true, none, "T"⟩] 98
        = Except.error "Transaction not found") :=
  ⟨by decide, by simp, by decide,
    claim_C9_amended [⟨1, "cement", 5, "bag", 0, "2024-01-01"⟩] []
      [⟨2, "2024-01-01", "revenue", "d", 10, true, none, "T"⟩] 99 98
      (by decide) (by simp) (by decide)⟩

/-- Each loop iteration only ever appends to the accumulated `remaining` list. -/
theorem processStep_append (fetch : QueuedRequest → Option Nat)
    (acc : List QueuedRequest) (item : QueuedRequest) :
    processStep fetch acc item = acc ++ processStep fetch [] item := by
  unfold processStep
  cases fetch item with
  | none => dsimp only; split <;> simp
  | some s =>
    dsimp only
    split
    · split
      · simp
      · split <;> simp
    · simp

theorem processQueuePass_acc (fetch : QueuedRequest → Option Nat)
    (q : List QueuedRequest) (acc : List QueuedRequest) :
    q.foldl (processStep fetch) acc = acc ++ q.foldl (processStep fetch) [] := by
  induction q generalizing acc with
  | nil => simp
  | cons x xs ih =>
    simp only [List.foldl_cons]
    rw [ih (processStep fetch acc x), processStep_append fetch acc x,
      ih (processStep fetch [] x), List.append_assoc]

/-- Whatever one iteration contributes keeps the request's id. -/
theorem processStep_id (fetch : QueuedRequest → Option Nat) (item : QueuedRequest) :
    ∀ r ∈ processStep fetch [] item, r.id = item.id := by
  intro r hr
  unfold processStep at hr
  cases hf : fetch item with
  | none =>
    rw [hf] at hr
    dsimp only at hr
    split at hr
    · simp only [List.nil_append, List.mem_singleton] at hr
      rw [hr]
    · cases hr
  | some s =>
    rw [hf] at hr
    dsimp only at hr
    split at hr
    · split at hr
      · cases hr
      · split at hr
        · simp only [List.nil_append, List.mem_singleton] at hr
          rw [hr]
        · cases hr
    · cases hr

/-- Every id surviving a drain pass was already an id in the queue. -/
theorem processQueuePass_ids (fetch : QueuedRequest → Option Nat) (q : List QueuedRequest) :
    ∀ r ∈ processQueuePass fetch q, r.id ∈ q.map QueuedRequest.id := by
  induction q with
  | nil => intro r hr; cases hr
  | cons x xs ih =>
    intro r hr
    unfold processQueuePass at hr
    simp only [List.foldl_cons] at hr
    rw [processQueuePass_acc] at hr
    rcases List.mem_append.mp hr with h | h
    · rw [List.map_cons, processStep_id fetch x r h]
      exact List.mem_cons_self _ _
    · rw [List.map_cons]
      exact List.mem_cons_of_mem _ (ih r h)

/-- C7: a queued mutation whose replay receives a 4xx response is dropped from
the queue in that single pass — no element of the saved remaining queue carries
its id (so it is never retried and no retry-count bump of it survives). -/
theorem claim_C7_4xx_discarded (fetch : QueuedRequest → Option Nat)
    (q : List QueuedRequest) (item : QueuedRequest) (s : Nat)
    (hnodup : (q.map QueuedRequest.id).Nodup) (hmem : item ∈ q)
    (hfetch : fetch item = some s) (h400 : 400 ≤ s) (h500 : s < 500) :
    ∀ r ∈ processQueuePass fetch q, r.id ≠ item.id := by
  induction q with
  | nil => cases hmem
  | cons x xs ih =>
    intro r hr
    unfold processQueuePass at hr
    simp only [List.foldl_cons] at hr
    rw [processQueuePass_acc] at hr
    simp only [List.map_cons, List.nodup_cons] at hnodup
    rcases List.mem_cons.mp hmem with rfl | hmemxs
    · have hdrop : processStep fetch [] item = [] := by
        unfold processStep
        rw [hfetch]
        have hnotok : ¬ (200 ≤ s ∧ s < 300) := by omega
        have h4 : 400 ≤ s ∧ s < 500 := ⟨h400, h500⟩
        simp [hnotok, h4]
      rw [hdrop, List.nil_append] at hr
      have hid := processQueuePass_ids fetch xs r hr
      intro hcontra
      rw [hcontra] at hid
      exact hnodup.1 hid
    · rcases List.mem_append.mp hr with h | h
      · have hxid := processStep_id fetch x r h
        intro hcontra
        apply hnodup.1
        rw [← hxid, hcontra]
        exact List.mem_map_of_mem _ hmemxs
      · exact ih hnodup.2 hmemxs r h

/-- C7 witness: a two-element queue where request "a" replays with status 400 and
"b" with 201; after the pass no remaining entry carries id "a". -/
theorem claim_C7_4xx_discarded_witness :
    (([⟨"a", "/api/u", "POST", [], none, 0, 0⟩,
        ⟨"b", "/api/u", "POST", [], none, 0, 0⟩] : List QueuedRequest).map
      QueuedRequest.id).Nodup ∧
    (⟨"a", "/api/u", "POST", [], none, 0, 0⟩ : QueuedRequest) ∈
      ([⟨"a", "/api/u", "POST", [], none, 0, 0⟩,
        ⟨"b", "/api/u", "POST", [], none, 0, 0⟩] : List QueuedRequest) ∧
    ((fun it : QueuedRequest => if it.id == "a" then some 400 else some 201)
      (⟨"a", "/api/u", "POST", [], none, 0, 0⟩ : QueuedRequest) = some 400) ∧
    400 ≤ 400 ∧ 400 < 500 ∧
    (∀ r ∈ processQueuePass
        (fun it : QueuedRequest => if it.id == "a" then some 400 else some 201)
        [⟨"a", "/api/u", "POST", [], none, 0, 0⟩,
          ⟨"b", "/api/u", "POST", [], none, 0, 0⟩],
      r.id ≠ (⟨"a", "/api/u", "POST", [], none, 0, 0⟩ : QueuedRequest).id) :=
  ⟨by decide, by decide, by decide, by decide, by decide,
    claim_C7_4xx_discarded
      (fun it : QueuedRequest => if it.id == "a" then some 400 else some 201)
      [⟨"a", "/api/u", "POST", [], none, 0, 0⟩, ⟨"b", "/api/u", "POST", [], none, 0, 0⟩]
      ⟨"a", "/api/u", "POST", [], none, 0, 0⟩ 400
      (by decide) (by decide) (by decide) (by decide) (by decide)⟩

/-- C5 counterexample: a financed sale with price 1000, downPayment 0,
monthlyAmount 1, months 2 generates a batch whose amounts sum to 2, not
price − downPayment = 1000: the store takes the plan parameters verbatim and
never enforces monthlyAmount × months = price − downPayment. -/
theorem claim_C5_counterexample :
    (((createProjectSaleFallback [] [] [] 50 51 (fun i => 100 + i) "T"
        ⟨1, "P", "U1", "B", 1000, "2024-01-01", none, none, none, some 0, some 1,
          some 2, some "2024-02-01", true, none⟩).2.2.2.getD []).map
      Installment.amount).sum = 2 ∧ (2 : Int) ≠ 1000 - 0 := by
  constructor
  · rfl
  · decide

/-- C5 (amended): the sum of a generated installment batch equals
monthlyAmount × months; consequently it equals price − downPayment exactly when
the caller supplies a plan satisfying monthlyAmount × months = price − downPayment
(a relation the store itself never checks). -/
theorem claim_C5_amended (ids : Nat → Nat) (pr sa : Nat) (un bu : String)
    (m : Int) (n : Nat) (f : String) (st : List Installment) (price down : Int) :
    (((createInstallmentsForSale ids pr sa un bu m n f st).2.map Installment.amount).sum
      = (n : Int) * m) ∧
    (m * (n : Int) = price - down →
      ((createInstallmentsForSale ids pr sa un bu m n f st).2.map Installment.amount).sum
        = price - down) := by
  have hsum : ((createInstallmentsForSale ids pr sa un bu m n f st).2.map
      Installment.amount).sum = (n : Int) * m := by
    have h1 : (createInstallmentsForSale ids pr sa un bu m n f st).2
        = sortByDueDate ((List.range n).map (fun i =>
            { id := ids i, projectId := pr, saleId := sa, unitNo := un, buyer := bu,
              amount := m, dueDate := addMonthsISO f i, paid := false,
              paidAt := none : Installment })) := rfl
    rw [h1]
    unfold sortByDueDate
    have hperm := (List.perm_insertionSort
      (fun a b : Installment => strLe a.dueDate b.dueDate = true)
      ((List.range n).map (fun i =>
        { id := ids i, projectId := pr, saleId := sa, unitNo := un, buyer := bu,
          amount := m, dueDate := addMonthsISO f i, paid := false,
          paidAt := none : Installment }))).map Installment.amount
    rw [hperm.sum_eq, List.map_map]
    show ((List.range n).map (fun _ => m)).sum = (n : Int) * m
    rw [sum_map_const_int, List.length_range]
  refine ⟨hsum, fun h => ?_⟩
  rw [hsum, ← h]
  ring

/-- C5 amended witness: monthlyAmount 500 over 2 months against price 1000 and
downPayment 0 — a consistent plan, whose batch sums to 1000. -/
theorem claim_C5_amended_witness :
    (((createInstallmentsForSale (fun i => i) 1 2 "U" "B" 500 2 "2024-01-01" []).2.map
        Installment.amount).sum = ((2 : Nat) : Int) * 500) ∧
    ((500 : Int) * ((2 : Nat) : Int) = 1000 - 0) ∧
    (((createInstallmentsForSale (fun i => i) 1 2 "U" "B" 500 2 "2024-01-01" []).2.map
        Installment.amount).sum = 1000 - 0) :=
  ⟨(claim_C5_amended (fun i => i) 1 2 "U" "B" 500 2 "2024-01-01" [] 1000 0).1,
    by decide,
    (claim_C5_amended (fun i => i) 1 2 "U" "B" 500 2 "2024-01-01" [] 1000 0).2
      (by decide)⟩

/-- The reminders appended by a sweep contribute, per installment id, exactly the
number of occurrences of that id in the due list. -/
theorem countP_reminders_map (due : List Installment) (now : String)
    (rids : Nat → Nat) (iid : Nat) :
    List.countP (fun r => r.installmentId == iid) (due.enum.map (fun p =>
      ({ id := rids p.1, installmentId := p.2.id, sentAt := now,
         note := some ("auto reminder for due " ++ p.2.dueDate) } : InstallmentReminder)))
      = List.countP (fun x => x.id == iid) due := by
  rw [List.countP_map]
  show List.countP (fun p : Nat × Installment => p.2.id == iid) (List.enumFrom 0 due)
    = List.countP (fun x => x.id == iid) due
  exact countP_enumFrom (fun x => x.id == iid) due 0

/-- With unique installment ids, the due list contains an installment exactly
once when it is unpaid and due, and not at all otherwise. -/
theorem countP_due_list (db : Db) (date : String) (inst : Installment)
    (hnodup : (db.installments.map Installment.id).Nodup)
    (hmem : inst ∈ db.installments) :
    List.countP (fun x => x.id == inst.id) (getDueInstallmentsDb db date)
      = if inst.paid = false ∧ strLe inst.dueDate date = true then 1 else 0 := by
  unfold getDueInstallmentsDb sortByDueDate
  rw [(List.perm_insertionSort _ _).countP_eq]
  have h := countP_id_filter_of_nodup db.installments
    (fun i => !i.paid && strLe i.dueDate date) inst hnodup hmem
  rw [h]
  by_cases h1 : inst.paid
  · simp [h1]
  · by_cases h2 : strLe inst.dueDate date = true
    · simp [h1, h2]
    · simp [h1, h2]

/-- One sweep appends exactly one reminder for a due unpaid installment and none
for any other installment, and never touches the installments themselves. -/
theorem sweep_reminderCount (db : Db) (date now : String) (rids : Nat → Nat)
    (hnodup : (db.installments.map Installment.id).Nodup) (inst : Installment)
    (hmem : inst ∈ db.installments) :
    reminderCount (sweepRunOnce db date now rids) inst.id =
      reminderCount db inst.id +
        (if inst.paid = false ∧ strLe inst.dueDate date = true then 1 else 0) := by
  unfold reminderCount sweepRunOnce
  rw [List.filter_append, List.length_append]
  congr 1
  rw [← List.countP_eq_length_filter]
  rw [countP_reminders_map]
  exact countP_due_list db date inst hnodup hmem

/-- C6: a sweep run appends exactly one reminder for every installment with
paid=false and dueDate ≤ the run date (and none for any other), with no
de-duplication against prior reminders; the installments table is unchanged, so
a second run on the same date appends one further reminder per still-due
installment. -/
theorem claim_C6_sweep (db : Db) (date now now2 : String) (rids rids2 : Nat → Nat)
    (hnodup : (db.installments.map Installment.id).Nodup) :
    (sweepRunOnce db date now rids).installments = db.installments ∧
    (∀ inst ∈ db.installments,
      reminderCount (sweepRunOnce db date now rids) inst.id =
        reminderCount db inst.id +
          (if inst.paid = false ∧ strLe inst.dueDate date = true then 1 else 0)) ∧
    (∀ inst ∈ db.installments,
      reminderCount (sweepRunOnce (sweepRunOnce db date now rids) date now2 rids2) inst.id
        = reminderCount db inst.id +
          (if inst.paid = false ∧ strLe inst.dueDate date = true then 2 else 0)) := by
  refine ⟨rfl, fun inst hmem => sweep_reminderCount db date now rids hnodup inst hmem,
    fun inst hmem => ?_⟩
  have h1 := sweep_reminderCount db date now rids hnodup inst hmem
  have h2 := sweep_reminderCount (sweepRunOnce db date now rids) date now2 rids2
    hnodup inst hmem
  rw [h2, h1]
  by_cases hc : inst.paid = false ∧ strLe inst.dueDate date = true
  · simp [hc]
  · simp [hc]

/-- C6 witness: installment I1 (amount 500, due 2024-01-01, unpaid) with run date
2024-01-02: the first sweep appends exactly one reminder for I1, the second
sweep a second one. -/
theorem claim_C6_sweep_witness :
    ((Db.mk [] [] [] [⟨31, 1, 21, "U", "B", 500, "2024-01-01", false, none⟩] [] [] [] []).installments.map
      Installment.id).Nodup ∧
    ((sweepRunOnce (Db.mk [] [] [] [⟨31, 1, 21, "U", "B", 500, "2024-01-01", false, none⟩] [] [] [] [])
        "2024-01-02" "2024-01-02" (fun i => 100 + i)).installments
      = (Db.mk [] [] [] [⟨31, 1, 21, "U", "B", 500, "2024-01-01", false, none⟩] [] [] [] []).installments ∧
    (∀ inst ∈ (Db.mk [] [] [] [⟨31, 1, 21, "U", "B", 500, "2024-01-01", false, none⟩] [] [] [] []).installments,
      reminderCount (sweepRunOnce (Db.mk [] [] [] [⟨31, 1, 21, "U", "B", 500, "2024-01-01", false, none⟩] [] [] [] [])
          "2024-01-02" "2024-01-02" (fun i => 100 + i)) inst.id =
        reminderCount (Db.mk [] [] [] [⟨31, 1, 21, "U", "B", 500, "2024-01-01", false, none⟩] [] [] [] []) inst.id +
          (if inst.paid = false ∧ strLe inst.dueDate "2024-01-02" = true then 1 else 0)) ∧
    (∀ inst ∈ (Db.mk [] [] [] [⟨31, 1, 21, "U", "B", 500, "2024-01-01", false, none⟩] [] [] [] []).installments,
      reminderCount (sweepRunOnce (sweepRunOnce (Db.mk [] [] [] [⟨31, 1, 21, "U", "B", 500, "2024-01-01", false, none⟩] [] [] [] [])
          "2024-01-02" "2024-01-02" (fun i => 100 + i)) "2024-01-02" "2024-01-02" (fun i => 200 + i)) inst.id
        = reminderCount (Db.mk [] [] [] [⟨31, 1, 21, "U", "B", 500, "2024-01-01", false, none⟩] [] [] [] []) inst.id +
          (if inst.paid = false ∧ strLe inst.dueDate "2024-01-02" = true then 2 else 0))) :=
  ⟨by decide,
    claim_C6_sweep (Db.mk [] [] [] [⟨31, 1, 21, "U", "B", 500, "2024-01-01", false, none⟩] [] [] [] [])
      "2024-01-02" "2024-01-02" "2024-01-02" (fun i => 100 + i) (fun i => 200 + i)
      (by decide)⟩


/-- Double application of the same key-filter collapses. -/
theorem filter_filter_self {α : Type} (p : α → Bool) (l : List α) :
    (l.filter p).filter p = l.filter p := by
  rw [List.filter_filter]
  apply List.filter_congr
  intro a _
  exact Bool.and_self (p a)

/-- Under foreign-key-consistent data, the sale-cascade filter is subsumed by the
project-cascade filter on installments. -/
theorem installments_cascade_collapse (db : Db) (pid : Nat)
    (hwf : ∀ i ∈ db.installments, ∀ s ∈ db.sales, s.id = i.saleId →
      s.projectId = i.projectId) :
    (db.installments.filter (fun i =>
        !(((db.sales.filter (fun s => s.projectId == pid)).map ProjectSale.id).contains
          i.saleId))).filter (fun i => !(i.projectId == pid))
      = db.installments.filter (fun i => !(i.projectId == pid)) := by
  rw [List.filter_filter]
  apply List.filter_congr
  intro i hi
  by_cases hproj : i.projectId = pid
  · simp [hproj]
  · have hall : ∀ s ∈ db.sales, s.projectId = pid → ¬ s.id = i.saleId := by
      intro s hs hspid hsid
      exact hproj ((hwf i hi s hs hsid).symm.trans hspid)
    simp [hproj]
    exact hall

/-- C3: deleting a stored project removes, in one atomic unit, exactly the
project row and every cost, sale and installment that references it (the
installments via the schema's cascades from the project and from its sales),
and no unrelated record is affected: other projects' rows survive, transactions,
items and movements are untouched, and every reminder whose installment does not
belong to the project survives. -/
theorem claim_C3_deleteProject (db : Db) (pid : Nat) (p : Project)
    (hmem : getByKey Project.id db.projects pid = some p)
    (hwf : ∀ i ∈ db.installments, ∀ s ∈ db.sales, s.id = i.saleId →
      s.projectId = i.projectId) :
    ∃ db', deleteProjectDb db pid = Except.ok db' ∧
      db'.projects = db.projects.filter (fun x => !(x.id == pid)) ∧
      db'.costs = db.costs.filter (fun c => !(c.projectId == pid)) ∧
      db'.sales = db.sales.filter (fun s => !(s.projectId == pid)) ∧
      db'.installments = db.installments.filter (fun i => !(i.projectId == pid)) ∧
      db'.transactions = db.transactions ∧ db'.items = db.items ∧
      db'.movements = db.movements ∧
      (∀ r ∈ db.reminders,
        (∀ i ∈ db.installments, i.id = r.installmentId → i.projectId ≠ pid) →
        r ∈ db'.reminders) := by
  have hfind : db.projects.find? (fun x => x.id == pid) = some p := hmem
  have hrun : deleteProjectDb db pid = Except.ok
      { projects := db.projects.filter (fun x => !(x.id == pid)),
        costs := (db.costs.filter (fun c => !(c.projectId == pid))).filter
          (fun c => !(c.projectId == pid)),
        sales := (db.sales.filter (fun s => !(s.projectId == pid))).filter
          (fun s => !(s.projectId == pid)),
        installments := (db.installments.filter (fun i =>
          !(((db.sales.filter (fun s => s.projectId == pid)).map ProjectSale.id).contains
            i.saleId))).filter (fun i => !(i.projectId == pid)),
        reminders := (db.reminders.filter (fun r =>
          !(((db.installments.filter (fun i =>
            ((db.sales.filter (fun s => s.projectId == pid)).map ProjectSale.id).contains
              i.saleId)).map Installment.id).contains r.installmentId))).filter (fun r =>
          !((((db.installments.filter (fun i =>
            !(((db.sales.filter (fun s => s.projectId == pid)).map ProjectSale.id).contains
              i.saleId))).filter (fun i => i.projectId == pid)).map Installment.id).contains
            r.installmentId)),
        transactions := db.transactions, items := db.items,
        movements := db.movements } := by
    unfold deleteProjectDb
    rw [hfind]
    rfl
  refine ⟨_, hrun, rfl, filter_filter_self _ db.costs, filter_filter_self _ db.sales,
    installments_cascade_collapse db pid hwf, rfl, rfl, rfl, ?_⟩
  intro r hr hsafe
  refine List.mem_filter.mpr ⟨List.mem_filter.mpr ⟨hr, ?_⟩, ?_⟩
  · rw [Bool.not_eq_eq_eq_not, Bool.not_true, List.contains_eq_any_beq,
      List.any_eq_false]
    intro iid hiid
    simp only [List.mem_map, List.mem_filter] at hiid
    obtain ⟨i, ⟨hi, hisale⟩, rfl⟩ := hiid
    intro hbeq
    simp only [beq_iff_eq] at hbeq
    rw [List.contains_eq_any_beq, List.any_eq_true] at hisale
    obtain ⟨sid, hsid, hsbeq⟩ := hisale
    simp only [List.mem_map, List.mem_filter] at hsid
    obtain ⟨s, ⟨hs, hspid⟩, rfl⟩ := hsid
    simp only [beq_iff_eq] at hspid hsbeq
    have hip : i.projectId = pid := by
      rw [← hwf i hi s hs hsbeq.symm, hspid]
    exact hsafe i hi hbeq.symm hip
  · rw [Bool.not_eq_eq_eq_not, Bool.not_true, List.contains_eq_any_beq,
      List.any_eq_false]
    intro iid hiid
    simp only [List.mem_map, List.mem_filter] at hiid
    obtain ⟨i, ⟨⟨hi, hikeep⟩, hipid⟩, rfl⟩ := hiid
    intro hbeq
    simp only [beq_iff_eq] at hbeq hipid
    exact hsafe i hi hbeq.symm hipid

/-- C3 witness: deleting project 1 from `sampleDbC3` removes exactly
P1, C11, C12, S21, I31, I32 and leaves project 2's records and reminder 41
untouched. -/
theorem claim_C3_deleteProject_witness :
    (getByKey Project.id sampleDbC3.projects 1 = some ⟨1, "P1", "L", 0, 0, "T"⟩) ∧
    (∀ i ∈ sampleDbC3.installments, ∀ s ∈ sampleDbC3.sales, s.id = i.saleId →
      s.projectId = i.projectId) ∧
    (∃ db', deleteProjectDb sampleDbC3 1 = Except.ok db' ∧
      db'.projects = sampleDbC3.projects.filter (fun x => !(x.id == 1)) ∧
      db'.costs = sampleDbC3.costs.filter (fun c => !(c.projectId == 1)) ∧
      db'.sales = sampleDbC3.sales.filter (fun s => !(s.projectId == 1)) ∧
      db'.installments = sampleDbC3.installments.filter (fun i => !(i.projectId == 1)) ∧
      db'.transactions = sampleDbC3.transactions ∧ db'.items = sampleDbC3.items ∧
      db'.movements = sampleDbC3.movements ∧
      (∀ r ∈ sampleDbC3.reminders,
        (∀ i ∈ sampleDbC3.installments, i.id = r.installmentId → i.projectId ≠ 1) →
        r ∈ db'.reminders)) :=
  ⟨by decide, by decide,
    claim_C3_deleteProject sampleDbC3 1 ⟨1, "P1", "L", 0, 0, "T"⟩ (by decide) (by decide)⟩
